import Mathlib

/-!
Shallow embedding of `backend/api/calendly_integration.py`.

Times of day are modelled as minutes since midnight (`Nat`).  The Python code
passes `"HH:MM"` strings through `datetime.strptime` / `strftime`; the string
handling is modelled character-by-character so that the zero-padding behaviour
of `strftime("%H:%M")` and the 1-or-2-digit tolerance of `strptime("%H:%M")`
are both captured.  The schedule JSON file is an external configuration
collaborator; it is modelled as a `Schedule` value passed in explicitly.
The global `RUNTIME_BOOKINGS` dict is modelled as an association list threaded
through the operations.  A raised-and-caught `HTTPException` becomes an error
constructor; an uncaught exception (unreadable/malformed configuration)
becomes the `crash` outcome.
-/

namespace Calendly

/-- ASCII digit test, mirroring the `\d` character class used by `strptime`. -/
def isDigitChar (c : Char) : Bool :=
  48 ≤ c.toNat && c.toNat ≤ 57

def allDigits (cs : List Char) : Bool :=
  cs.all isDigitChar

/-- Numeric value of a digit string (most significant first). -/
def digitsVal (cs : List Char) : Nat :=
  cs.foldl (fun a c => a * 10 + (c.toNat - 48)) 0

/-- Split a character list on a separator, like `str.split(sep)`. -/
def splitOnChar (sep : Char) : List Char → List (List Char)
  | [] => [[]]
  | c :: rest =>
    match splitOnChar sep rest with
    | [] => [[]]
    | g :: gs => if c = sep then [] :: g :: gs else (c :: g) :: gs

/-- One `%H` / `%M` field of `strptime`: a single digit, or two digits whose
value is at most `hi` (23 for hours, 59 for minutes). -/
def timeField (cs : List Char) (hi : Nat) : Option Nat :=
  if cs.length = 1 && allDigits cs then some (digitsVal cs)
  else if cs.length = 2 && allDigits cs && digitsVal cs ≤ hi then some (digitsVal cs)
  else none

/-- Model of `strptime(time_str, "%H:%M")`, returning minutes since midnight.
`none` models the `ValueError` raised on a malformed string. -/
def parse_time (time_str : String) : Option Nat :=
  match splitOnChar ':' time_str.data with
  | [h, m] => do
    let hv ← timeField h 23
    let mv ← timeField m 59
    pure (hv * 60 + mv)
  | _ => none

def digitChar (n : Nat) : Char := Char.ofNat (48 + n)

/-- Model of `dt.strftime("%H:%M")`: the time of day of the instant `m` minutes after
midnight, as a zero-padded `"HH:MM"` string (`% 1440` folds instants on a
later day back to their time of day, exactly as `strftime` shows them). -/
def format_time (m : Nat) : String :=
  String.mk [digitChar (m % 1440 / 60 / 10), digitChar (m % 1440 / 60 % 10), ':',
             digitChar (m % 1440 % 60 / 10), digitChar (m % 1440 % 60 % 10)]

/-- Half-open interval overlap, the `_overlaps` function. -/
def overlaps (a_start a_end b_start b_end : Nat) : Bool :=
  a_start < b_end && b_start < a_end

def isLeapYear (y : Nat) : Bool :=
  y % 4 = 0 && (y % 100 ≠ 0 || y % 400 = 0)

def daysInMonth (y m : Nat) : Nat :=
  if m = 2 then (if isLeapYear y then 29 else 28)
  else [0, 31, 0, 31, 30, 31, 30, 31, 31, 30, 31, 30, 31].getD m 31

/-- One `%m` field of `strptime`: `1`–`9` or `01`–`12`. -/
def monthField (cs : List Char) : Option Nat :=
  if cs.length = 1 && allDigits cs && 1 ≤ digitsVal cs then some (digitsVal cs)
  else if cs.length = 2 && allDigits cs && 1 ≤ digitsVal cs && digitsVal cs ≤ 12 then
    some (digitsVal cs)
  else none

/-- One `%d` field of `strptime`: `1`–`9` or `01`–`31`. -/
def dayField (cs : List Char) : Option Nat :=
  if cs.length = 1 && allDigits cs && 1 ≤ digitsVal cs then some (digitsVal cs)
  else if cs.length = 2 && allDigits cs && 1 ≤ digitsVal cs && digitsVal cs ≤ 31 then
    some (digitsVal cs)
  else none

/-- Model of `strptime(date_str, "%Y-%m-%d")`: a four-digit year `0001`–`9999`, a month
field, and a day field that exists in that month. -/
def parse_date (date_str : String) : Option (Nat × Nat × Nat) :=
  match splitOnChar '-' date_str.data with
  | [ys, ms, ds] =>
    if ys.length = 4 && allDigits ys && 1 ≤ digitsVal ys then do
      let m ← monthField ms
      let d ← dayField ds
      if d ≤ daysInMonth (digitsVal ys) m then pure (digitsVal ys, m, d) else none
    else none
  | _ => none

def daysBeforeMonth (m : Nat) (leap : Bool) : Nat :=
  [0, 0, 31, 59, 90, 120, 151, 181, 212, 243, 273, 304, 334].getD m 0 +
    (if 2 < m && leap then 1 else 0)

/-- The proleptic Gregorian day number `date(y, m, d).toordinal()`. -/
def toOrdinal (y m d : Nat) : Nat :=
  365 * (y - 1) + (y - 1) / 4 + (y - 1) / 400 + daysBeforeMonth m (isLeapYear y) + d
    - (y - 1) / 100

def WEEKDAYS : List String :=
  ["monday", "tuesday", "wednesday", "thursday", "friday", "saturday", "sunday"]

/-- Model of `_get_weekday`: weekday name of a date string, `none` on a malformed date
(the `ValueError` of `strptime`).  `datetime.weekday()` is Monday = 0. -/
def get_weekday (date_str : String) : Option String := do
  let (y, m, d) ← parse_date date_str
  pure (WEEKDAYS.getD ((toOrdinal y m d - 1) % 7) "")

structure Slot where
  start_time : String
  end_time : String
  available : Bool
deriving Repr, DecidableEq

/-- The external schedule configuration (`doctor_schedule.json`): per-weekday
optional working-hours window (as the raw `"start"` / `"end"` strings of the
file) and the `existing_bookings` list of (date, start_time, end_time). -/
structure Schedule where
  working_hours : String → Option (String × String)
  existing_bookings : List (String × String × String)

/-- The `RUNTIME_BOOKINGS` state: a dict from date string to list of
(start_time, end_time) string pairs, as an insertion-ordered association list. -/
abbrev Store := List (String × List (String × String))

def Store.get (store : Store) (d : String) : List (String × String) :=
  match store.find? (fun kv => kv.1 = d) with
  | some kv => kv.2
  | none => []

/-- Model of `RUNTIME_BOOKINGS.setdefault(d, []).append(v)`. -/
def Store.setdefaultAppend (store : Store) (d : String) (v : String × String) : Store :=
  if store.any (fun kv => kv.1 = d) then
    store.map (fun kv => if kv.1 = d then (kv.1, kv.2 ++ [v]) else kv)
  else store ++ [(d, [v])]

/-- The `APPOINTMENT_DURATIONS_MIN` dict as a lookup; `none` is the dict `KeyError`. -/
def APPOINTMENT_DURATIONS_MIN (t : String) : Option Nat :=
  if t = "consultation" then some 30
  else if t = "followup" then some 15
  else if t = "physical" then some 45
  else if t = "special" then some 60
  else none

/-- Parse each (start, end) string pair in order; `none` models the
`ValueError` escaping on the first malformed entry. -/
def parsePairs : List (String × String) → Option (List (Nat × Nat))
  | [] => some []
  | (a, b) :: rest => do
    let x ← parse_time a
    let y ← parse_time b
    let r ← parsePairs rest
    pure ((x, y) :: r)

/-- Model of `_collect_existing_bookings`: config-file bookings for the date followed by
the runtime bookings for the date, as numeric intervals. -/
def collect_existing_bookings (sched : Schedule) (store : Store) (date_str : String) :
    Option (List (Nat × Nat)) := do
  let fileB ← parsePairs
    ((sched.existing_bookings.filter (fun e => e.1 = date_str)).map (fun e => (e.2.1, e.2.2)))
  let runB ← parsePairs (Store.get store date_str)
  pure (fileB ++ runB)

/-- The `while cursor + duration <= day_end` loop of `_generate_slots`.
The fuel argument only bounds the iteration count; callers pass fuel that is
never exhausted for the positive durations of `APPOINTMENT_DURATIONS_MIN`. -/
def genLoop (day_end duration : Nat) (existing : List (Nat × Nat)) :
    Nat → Nat → List Slot
  | 0, _ => []
  | fuel + 1, cursor =>
    if cursor + duration ≤ day_end then
      { start_time := format_time cursor,
        end_time := format_time (cursor + duration),
        available := !(existing.any fun b => overlaps cursor (cursor + duration) b.1 b.2) }
        :: genLoop day_end duration existing fuel (cursor + duration)
    else []

/-- Model of `_generate_slots`; `none` is an uncaught exception (malformed config or
date, unknown type reaching the duration lookup). -/
def generate_slots (sched : Schedule) (store : Store) (date_str appointment_type : String) :
    Option (List Slot) := do
  let weekday ← get_weekday date_str
  match sched.working_hours weekday with
  | none => pure []
  | some hours => do
    let duration_min ← APPOINTMENT_DURATIONS_MIN appointment_type
    let day_start ← parse_time hours.1
    let day_end ← parse_time hours.2
    let existing ← collect_existing_bookings sched store date_str
    pure (genLoop day_end duration_min existing (day_end + 1) day_start)

structure Patient where
  name : String
  email : String
  phone : String
deriving Repr, DecidableEq

structure BookingRequest where
  appointment_type : String
  date : String
  start_time : String
  patient : Patient
  reason : Option String := none
deriving Repr, DecidableEq

structure BookingDetails where
  appointment_type : String
  date : String
  start_time : String
  end_time : String
  patient : Patient
  reason : Option String
deriving Repr, DecidableEq

/-- The `HTTPException`s raised by `book_appointment`. -/
inductive BookErr where
  | invalidAppointmentType
  | invalidDateTime
  | outsideWorkingHours
  | slotConflict
deriving Repr, DecidableEq

def BookErr.status : BookErr → Nat
  | .invalidAppointmentType => 400
  | .invalidDateTime => 400
  | .outsideWorkingHours => 400
  | .slotConflict => 409

/-- Result of `book_appointment`.  `ok` carries the response `status` string
and the echoed details; `booking_id` and `confirmation_code` come from
`uuid4()`/`now()` and are outside the model.  `crash` is an uncaught
exception. -/
inductive BookOutcome where
  | ok (status : String) (details : BookingDetails)
  | err (e : BookErr)
  | crash
deriving Repr, DecidableEq

/-- Model of `book_appointment`, returning the outcome together with the resulting
`RUNTIME_BOOKINGS` state. -/
def book_appointment (sched : Schedule) (store : Store) (req : BookingRequest) :
    BookOutcome × Store :=
  match APPOINTMENT_DURATIONS_MIN req.appointment_type with
  | none => (.err .invalidAppointmentType, store)
  | some duration_min =>
    match parse_date req.date, parse_time req.start_time with
    | some _, some start_min =>
      let end_str := format_time (start_min + duration_min)
      match generate_slots sched store req.date req.appointment_type with
      | none => (.crash, store)
      | some slots =>
        match slots.reverse.find?
            (fun s => s.start_time = req.start_time && s.end_time = end_str) with
        | none => (.err .outsideWorkingHours, store)
        | some s =>
          if !s.available then (.err .slotConflict, store)
          else
            (.ok "confirmed"
              { appointment_type := req.appointment_type, date := req.date,
                start_time := req.start_time, end_time := end_str,
                patient := req.patient, reason := req.reason },
             store.setdefaultAppend req.date (req.start_time, end_str))
    | _, _ => (.err .invalidDateTime, store)

inductive AvailOutcome where
  | ok (date : String) (available_slots : List Slot)
  | err
  | crash
deriving Repr, DecidableEq

/-- Model of `get_availability`, returning the outcome together with the (unchanged)
`RUNTIME_BOOKINGS` state. -/
def get_availability (sched : Schedule) (store : Store) (date appointment_type : String) :
    AvailOutcome × Store :=
  match APPOINTMENT_DURATIONS_MIN appointment_type with
  | none => (.err, store)
  | some _ =>
    match parse_date date with
    | none => (.err, store)
    | some _ =>
      match generate_slots sched store date appointment_type with
      | none => (.crash, store)
      | some slots => (.ok date slots, store)

/-- Run a sequence of booking requests, threading the store. -/
def runBooks (sched : Schedule) (reqs : List BookingRequest) (store : Store) : Store :=
  reqs.foldl (fun st r => (book_appointment sched st r).2) store

/-- The candidate slot at grid index `k`, as `_generate_slots` builds it. -/
def gridSlot (day_start duration : Nat) (existing : List (Nat × Nat)) (k : Nat) : Slot :=
  { start_time := format_time (day_start + k * duration),
    end_time := format_time (day_start + (k + 1) * duration),
    available := !(existing.any fun b =>
      overlaps (day_start + k * duration) (day_start + (k + 1) * duration) b.1 b.2) }

/-- No two intervals of the list overlap. -/
def PairwiseDisjoint (l : List (Nat × Nat)) : Prop :=
  l.Pairwise fun a b => overlaps a.1 a.2 b.1 b.2 = false

/-- The per-date collected set of intervals is pairwise non-overlapping,
whenever collecting succeeds. -/
def DateInvariant (sched : Schedule) (store : Store) (d : String) : Prop :=
  ∀ ex, collect_existing_bookings sched store d = some ex → PairwiseDisjoint ex

/-- The spec's §8 example configuration: Monday 09:00–10:00, no pre-existing
bookings. -/
def sampleSchedule : Schedule :=
  { working_hours := fun wd => if wd = "monday" then some ("09:00", "10:00") else none,
    existing_bookings := [] }

/-- A configuration whose pre-existing bookings themselves overlap. -/
def schedBad : Schedule :=
  { working_hours := fun _ => none,
    existing_bookings :=
      [("2024-01-15", "09:00", "10:00"), ("2024-01-15", "09:30", "10:30")] }

def samplePatient : Patient :=
  { name := "John Doe", email := "john@example.com", phone := "+1-555-0100" }

/-- A booking request for the 09:00 consultation slot on Monday 2024-01-15. -/
def sampleRequest : BookingRequest :=
  { appointment_type := "consultation", date := "2024-01-15",
    start_time := "09:00", patient := samplePatient, reason := none }

/-- The same request written with an unpadded hour. -/
def unpaddedRequest : BookingRequest :=
  { appointment_type := "consultation", date := "2024-01-15",
    start_time := "9:00", patient := samplePatient, reason := none }

/-! ### Character-level facts about time parsing and formatting -/

lemma digitChar_toNat {x : Nat} (h : x ≤ 9) : (digitChar x).toNat = 48 + x := by
  interval_cases x <;> decide

lemma digitChar_isDigit {x : Nat} (h : x ≤ 9) : isDigitChar (digitChar x) = true := by
  interval_cases x <;> decide

lemma digitChar_ne_colon {x : Nat} (h : x ≤ 9) : ¬ (digitChar x = ':') := by
  interval_cases x <;> decide

lemma digitsVal_pair {p q : Nat} (hp : p ≤ 9) (hq : q ≤ 9) :
    digitsVal [digitChar p, digitChar q] = p * 10 + q := by
  simp [digitsVal, digitChar_toNat hp, digitChar_toNat hq]

lemma digitsVal_single_le {c : Char} (h : isDigitChar c = true) : digitsVal [c] ≤ 9 := by
  simp [isDigitChar] at h
  simp [digitsVal]
  omega

lemma splitOnChar_five {a b c d : Char} (ha : ¬ (a = ':')) (hb : ¬ (b = ':'))
    (hc : ¬ (c = ':')) (hd : ¬ (d = ':')) :
    splitOnChar ':' [a, b, ':', c, d] = [[a, b], [c, d]] := by
  simp [splitOnChar, ha, hb, hc, hd]

lemma timeField_pair {p q hi : Nat} (hp : p ≤ 9) (hq : q ≤ 9) (hv : p * 10 + q ≤ hi) :
    timeField [digitChar p, digitChar q] hi = some (p * 10 + q) := by
  simp [timeField, allDigits, digitChar_isDigit hp, digitChar_isDigit hq,
    digitsVal_pair hp hq, hv]

lemma timeField_le {cs : List Char} {hi v : Nat} (h : timeField cs hi = some v)
    (h9 : 9 ≤ hi) : v ≤ hi := by
  unfold timeField at h
  split_ifs at h with h1 h2
  · simp only [Bool.and_eq_true] at h1
    obtain ⟨hl, hd⟩ := h1
    obtain ⟨c, rfl⟩ := List.length_eq_one.mp (by simpa using hl)
    have hc : isDigitChar c = true := by simpa [allDigits] using hd
    have := digitsVal_single_le hc
    injection h with h
    omega
  · simp only [Bool.and_eq_true, decide_eq_true_eq] at h2
    injection h with h
    omega

/-- Formatting a time of day and re-parsing it round-trips. -/
lemma parse_format_roundtrip {m : Nat} (h : m < 1440) :
    parse_time (format_time m) = some m := by
  have hm : m % 1440 = m := Nat.mod_eq_of_lt h
  have h1 : m / 60 / 10 ≤ 9 := by omega
  have h2 : m / 60 % 10 ≤ 9 := by omega
  have h3 : m % 60 / 10 ≤ 9 := by omega
  have h4 : m % 60 % 10 ≤ 9 := by omega
  unfold format_time parse_time
  rw [hm]
  rw [show (String.mk [digitChar (m / 60 / 10), digitChar (m / 60 % 10), ':',
      digitChar (m % 60 / 10), digitChar (m % 60 % 10)]).data
    = [digitChar (m / 60 / 10), digitChar (m / 60 % 10), ':',
      digitChar (m % 60 / 10), digitChar (m % 60 % 10)] from rfl]
  rw [splitOnChar_five (digitChar_ne_colon h1) (digitChar_ne_colon h2)
    (digitChar_ne_colon h3) (digitChar_ne_colon h4)]
  have e1 : timeField [digitChar (m / 60 / 10), digitChar (m / 60 % 10)] 23
      = some (m / 60) := by
    have h5 := timeField_pair h1 h2 (show m / 60 / 10 * 10 + m / 60 % 10 ≤ 23 by omega)
    rwa [show m / 60 / 10 * 10 + m / 60 % 10 = m / 60 by omega] at h5
  have e2 : timeField [digitChar (m % 60 / 10), digitChar (m % 60 % 10)] 59
      = some (m % 60) := by
    have h5 := timeField_pair h3 h4 (show m % 60 / 10 * 10 + m % 60 % 10 ≤ 59 by omega)
    rwa [show m % 60 / 10 * 10 + m % 60 % 10 = m % 60 by omega] at h5
  simp [e1, e2]
  omega

/-- A successfully parsed time of day is within the day. -/
lemma parse_time_lt {s : String} {m : Nat} (h : parse_time s = some m) : m < 1440 := by
  unfold parse_time at h
  split at h
  · rename_i a b heq
    cases hH : timeField a 23 with
    | none => simp [hH] at h
    | some hv =>
      cases hM : timeField b 59 with
      | none => simp [hH, hM] at h
      | some mv =>
        simp [hH, hM] at h
        have b1 := timeField_le hH (by omega)
        have b2 := timeField_le hM (by omega)
        omega
  · exact absurd h (by simp)

lemma format_time_inj {a b : Nat} (ha : a < 1440) (hb : b < 1440)
    (h : format_time a = format_time b) : a = b := by
  have r1 := parse_format_roundtrip ha
  have r2 := parse_format_roundtrip hb
  rw [h, r2] at r1
  injection r1 with r1
  omega

/-! ### Basic facts about the model -/

lemma duration_pos {t : String} {dur : Nat}
    (h : APPOINTMENT_DURATIONS_MIN t = some dur) : 0 < dur := by
  unfold APPOINTMENT_DURATIONS_MIN at h
  split_ifs at h <;> (injection h with h; omega)

lemma overlaps_comm (a₁ a₂ b₁ b₂ : Nat) :
    overlaps a₁ a₂ b₁ b₂ = overlaps b₁ b₂ a₁ a₂ := by
  simp [overlaps, Bool.and_comm]

lemma gridSlot_succ (c dur : Nat) (ex : List (Nat × Nat)) (k : Nat) :
    gridSlot c dur ex (k + 1) = gridSlot (c + dur) dur ex k := by
  unfold gridSlot
  have h1 : c + (k + 1) * dur = c + dur + k * dur := by ring
  have h2 : c + (k + 1 + 1) * dur = c + dur + (k + 1) * dur := by ring
  rw [h1, h2]

/-- The slot-generation loop is the grid of `(de - cursor) / dur` slots. -/
lemma genLoop_eq (de dur : Nat) (ex : List (Nat × Nat)) (hdur : 0 < dur) :
    ∀ fuel cursor, (de - cursor) / dur < fuel →
      genLoop de dur ex fuel cursor =
        (List.range ((de - cursor) / dur)).map (gridSlot cursor dur ex) := by
  intro fuel
  induction fuel with
  | zero => intro cursor h; exact absurd h (Nat.not_lt_zero _)
  | succ f ih =>
    intro cursor h
    by_cases hc : cursor + dur ≤ de
    · have hsub : de - cursor = (de - cursor - dur) + dur := by omega
      have hn : (de - cursor) / dur = (de - cursor - dur) / dur + 1 := by
        conv_lhs => rw [hsub]
        rw [Nat.add_div_right _ hdur]
      have hd2 : de - (cursor + dur) = de - cursor - dur := by omega
      have hb : (de - (cursor + dur)) / dur < f := by
        rw [hd2]
        rw [hn] at h
        exact Nat.lt_of_succ_lt_succ h
      have ih2 := ih (cursor + dur) hb
      rw [hn, List.range_succ_eq_map, List.map_cons, List.map_map]
      have hfun : (gridSlot cursor dur ex ∘ Nat.succ) = gridSlot (cursor + dur) dur ex := by
        funext k
        simpa [Nat.succ_eq_add_one] using gridSlot_succ cursor dur ex k
      rw [hfun]
      simp only [genLoop, hc, if_true]
      rw [ih2, hd2]
      congr 1
      simp [gridSlot]
    · have hn : (de - cursor) / dur = 0 := Nat.div_eq_of_lt (by omega)
      simp [genLoop, hc, hn]

/-- Every generated slot ends no later than the window's closing time. -/
lemma grid_end_le {ds de dur k : Nat} (hdur : 0 < dur)
    (hk : k < (de - ds) / dur) : ds + (k + 1) * dur ≤ de := by
  have h1 : ((de - ds) / dur) * dur ≤ de - ds := Nat.div_mul_le_self _ _
  have h2 : (k + 1) * dur ≤ ((de - ds) / dur) * dur := Nat.mul_le_mul_right _ hk
  have h3 : (k + 1) * dur ≤ de - ds := le_trans h2 h1
  have h4 : 0 < (k + 1) * dur := Nat.mul_pos (Nat.succ_pos k) hdur
  generalize (k + 1) * dur = x at h3 h4 ⊢
  omega

/-- On an open day `_generate_slots` is exactly the grid of candidate slots. -/
lemma generate_eq_grid {sched : Schedule} {store : Store} {date_str t wd hs he : String}
    {ds de dur : Nat} {ex : List (Nat × Nat)}
    (hwd : get_weekday date_str = some wd)
    (hh : sched.working_hours wd = some (hs, he))
    (hdur : APPOINTMENT_DURATIONS_MIN t = some dur)
    (hds : parse_time hs = some ds) (hde : parse_time he = some de)
    (hex : collect_existing_bookings sched store date_str = some ex) :
    generate_slots sched store date_str t =
      some ((List.range ((de - ds) / dur)).map (gridSlot ds dur ex)) := by
  have hpos : 0 < dur := duration_pos hdur
  have hfuel : (de - ds) / dur < de + 1 :=
    lt_of_le_of_lt (le_trans (Nat.div_le_self _ _) (Nat.sub_le _ _)) (Nat.lt_succ_self de)
  simp [generate_slots, hwd, hh, hdur, hds, hde, hex]
  exact genLoop_eq de dur ex hpos (de + 1) ds hfuel

/-- On a closed day `_generate_slots` returns the empty list. -/
lemma generate_closed {sched : Schedule} {store : Store} {date_str t wd : String}
    (hwd : get_weekday date_str = some wd)
    (hh : sched.working_hours wd = none) :
    generate_slots sched store date_str t = some [] := by
  simp [generate_slots, hwd, hh]

/-- What `setdefault(...).append(...)` does to a later dict lookup. -/
lemma store_get_setdefaultAppend (store : Store) (d d' : String) (v : String × String) :
    Store.get (Store.setdefaultAppend store d v) d' =
      if d' = d then Store.get store d' ++ [v] else Store.get store d' := by
  unfold Store.setdefaultAppend
  by_cases hany : store.any (fun kv => kv.1 = d) = true
  · rw [if_pos hany]
    unfold Store.get
    rw [List.find?_map]
    have hpred : ((fun kv : String × List (String × String) => decide (kv.1 = d')) ∘
        (fun kv => if kv.1 = d then (kv.1, kv.2 ++ [v]) else kv))
        = fun kv => decide (kv.1 = d') := by
      funext kv
      by_cases hkv : kv.1 = d <;> simp [hkv]
    rw [hpred]
    cases hf : store.find? (fun kv => decide (kv.1 = d')) with
    | none =>
      by_cases hdd : d' = d
      · subst hdd
        obtain ⟨kv, hmem, hkv⟩ := List.any_eq_true.mp hany
        rw [List.find?_eq_none] at hf
        exact absurd hkv (by simpa using hf kv hmem)
      · simp [hdd]
    | some kv =>
      have hkv : kv.1 = d' := by simpa using List.find?_some hf
      by_cases hdd : d' = d
      · subst hdd
        simp [hkv]
      · simp [hdd, hkv]
  · rw [if_neg hany]
    have hany' : store.any (fun kv => kv.1 = d) = false := by
      revert hany
      cases store.any (fun kv => kv.1 = d) <;> simp
    have habs : ∀ kv ∈ store, ¬ (kv.1 = d) := by
      intro kv hmem
      have := List.any_eq_false.mp hany' kv hmem
      simpa using this
    unfold Store.get
    rw [List.find?_append]
    by_cases hdd : d' = d
    · subst hdd
      have hf : store.find? (fun kv => decide (kv.1 = d')) = none := by
        rw [List.find?_eq_none]
        intro kv hmem
        simpa using habs kv hmem
      rw [hf]
      simp [List.find?]
    · cases hf : store.find? (fun kv => decide (kv.1 = d')) with
      | none => simp [List.find?, hdd, Ne.symm hdd]
      | some kv => simp [hdd]

/-- Parsing a pair list with one pair appended at the end. -/
lemma parsePairs_append_singleton (l : List (String × String)) (a b : String) :
    parsePairs (l ++ [(a, b)]) =
      (parsePairs l).bind fun r =>
        (parse_time a).bind fun x =>
          (parse_time b).bind fun y => some (r ++ [(x, y)]) := by
  induction l with
  | nil =>
    simp only [List.nil_append, parsePairs, Option.some_bind]
    cases parse_time a <;> cases parse_time b <;> simp [parsePairs]
  | cons p rest ih =>
    obtain ⟨pa, pb⟩ := p
    simp only [List.cons_append, parsePairs]
    cases hpa : parse_time pa <;> cases hpb : parse_time pb <;>
      simp [hpa, hpb, ih]
    cases parsePairs rest <;> cases parse_time a <;> cases parse_time b <;> simp

/-- Collecting after a commit on the same date appends the parsed interval. -/
lemma collect_setdefaultAppend_self {sched : Schedule} {store : Store} {d a b : String} :
    collect_existing_bookings sched (Store.setdefaultAppend store d (a, b)) d =
      (collect_existing_bookings sched store d).bind fun ex =>
        (parse_time a).bind fun x =>
          (parse_time b).bind fun y => some (ex ++ [(x, y)]) := by
  unfold collect_existing_bookings
  rw [store_get_setdefaultAppend, if_pos rfl, parsePairs_append_singleton]
  cases parsePairs ((sched.existing_bookings.filter (fun e => e.1 = d)).map
      (fun e => (e.2.1, e.2.2))) <;>
    cases parsePairs (Store.get store d) <;>
    cases parse_time a <;> cases parse_time b <;> simp [List.append_assoc]

/-- Collecting for another date is unaffected by a commit. -/
lemma collect_setdefaultAppend_other {sched : Schedule} {store : Store} {d d' : String}
    {v : String × String} (hne : d' ≠ d) :
    collect_existing_bookings sched (Store.setdefaultAppend store d v) d' =
      collect_existing_bookings sched store d' := by
  unfold collect_existing_bookings
  rw [store_get_setdefaultAppend, if_neg hne]

/-- A grid slot is available exactly when no collected interval overlaps it. -/
lemma gridSlot_available_iff {ds dur k : Nat} {ex : List (Nat × Nat)} :
    (gridSlot ds dur ex k).available = true ↔
      ∀ b ∈ ex, overlaps (ds + k * dur) (ds + (k + 1) * dur) b.1 b.2 = false := by
  simp only [gridSlot, Bool.not_eq_true']
  rw [List.any_eq_false]
  constructor
  · intro h b hb
    simpa using h b hb
  · intro h b hb
    simp [h b hb]

/-- Inverting a successful key lookup in the freshly generated grid: the found
slot is the grid slot whose start is the parsed requested start time. -/
lemma find_key_anatomy {ds de dur m : Nat} {ex : List (Nat × Nat)} {s : Slot}
    {req_start : String} (hpos : 0 < dur) (hde : de < 1440)
    (hm : parse_time req_start = some m)
    (hfind : (((List.range ((de - ds) / dur)).map (gridSlot ds dur ex)).reverse).find?
        (fun t => t.start_time = req_start && t.end_time = format_time (m + dur))
      = some s) :
    ∃ k, k < (de - ds) / dur ∧ m = ds + k * dur ∧ m + dur ≤ de ∧
      s = gridSlot ds dur ex k := by
  have hps := List.find?_some hfind
  have hmem := List.mem_of_find?_eq_some hfind
  rw [List.mem_reverse] at hmem
  obtain ⟨k, hk, hsk⟩ := List.mem_map.mp hmem
  rw [List.mem_range] at hk
  simp only [Bool.and_eq_true, decide_eq_true_eq] at hps
  obtain ⟨hst, _⟩ := hps
  have hstart : s.start_time = format_time (ds + k * dur) := by rw [← hsk]; rfl
  have hend_le : ds + (k + 1) * dur ≤ de := grid_end_le hpos hk
  have hBA : (k + 1) * dur = k * dur + dur := Nat.succ_mul k dur
  rw [hBA] at hend_le
  have hlt : ds + k * dur < 1440 := by
    generalize k * dur = A at hend_le ⊢
    omega
  have hparse : parse_time (format_time (ds + k * dur)) = some (ds + k * dur) :=
    parse_format_roundtrip hlt
  have hm2 : m = ds + k * dur := by
    rw [hstart] at hst
    rw [← hst, hparse] at hm
    injection hm with hm
    omega
  refine ⟨k, hk, hm2, ?_, hsk.symm⟩
  rw [hm2]
  omega

/-- Inversion of a successful `_generate_slots` call: either the day is closed
and the grid is empty, or all configuration reads succeed and the result is
the full candidate grid. -/
lemma generate_some_inversion {sched : Schedule} {store : Store} {date_str t : String}
    {slots : List Slot}
    (h : generate_slots sched store date_str t = some slots) :
    (∃ wd, get_weekday date_str = some wd ∧ sched.working_hours wd = none ∧ slots = []) ∨
    (∃ wd hs he ds de dur ex, get_weekday date_str = some wd ∧
      sched.working_hours wd = some (hs, he) ∧
      APPOINTMENT_DURATIONS_MIN t = some dur ∧
      parse_time hs = some ds ∧ parse_time he = some de ∧
      collect_existing_bookings sched store date_str = some ex ∧
      slots = (List.range ((de - ds) / dur)).map (gridSlot ds dur ex)) := by
  cases hwd : get_weekday date_str with
  | none => rw [generate_slots, hwd] at h; simp at h
  | some wd =>
    cases hh : sched.working_hours wd with
    | none =>
      left
      refine ⟨wd, rfl, hh, ?_⟩
      rw [generate_closed hwd hh] at h
      injection h with h
      exact h.symm
    | some hours =>
      obtain ⟨hs, he⟩ := hours
      cases hdur : APPOINTMENT_DURATIONS_MIN t with
      | none => rw [generate_slots, hwd] at h; simp [hh, hdur] at h
      | some dur =>
        cases hds : parse_time hs with
        | none => rw [generate_slots, hwd] at h; simp [hh, hdur, hds] at h
        | some ds =>
          cases hde : parse_time he with
          | none => rw [generate_slots, hwd] at h; simp [hh, hdur, hds, hde] at h
          | some de =>
            cases hex : collect_existing_bookings sched store date_str with
            | none => rw [generate_slots, hwd] at h; simp [hh, hdur, hds, hde, hex] at h
            | some ex =>
              right
              refine ⟨wd, hs, he, ds, de, dur, ex, rfl, hh, rfl, hds, hde, rfl, ?_⟩
              rw [generate_eq_grid hwd hh hdur hds hde hex] at h
              injection h with h
              exact h.symm

/-- The store after `book_appointment`: unchanged, or — on the success path —
extended by exactly the verified available slot's key. -/
lemma book_store_cases (sched : Schedule) (store : Store) (req : BookingRequest) :
    (book_appointment sched store req).2 = store ∨
    ∃ m dur slots s,
      APPOINTMENT_DURATIONS_MIN req.appointment_type = some dur ∧
      parse_time req.start_time = some m ∧
      generate_slots sched store req.date req.appointment_type = some slots ∧
      slots.reverse.find? (fun t => t.start_time = req.start_time &&
          t.end_time = format_time (m + dur)) = some s ∧
      s.available = true ∧
      (book_appointment sched store req).2 =
        Store.setdefaultAppend store req.date (req.start_time, format_time (m + dur)) := by
  unfold book_appointment
  cases hdur : APPOINTMENT_DURATIONS_MIN req.appointment_type with
  | none => left; rfl
  | some dur =>
    cases hD : parse_date req.date with
    | none =>
      cases hM : parse_time req.start_time with
      | none => left; rfl
      | some m => left; rfl
    | some ymd =>
      cases hM : parse_time req.start_time with
      | none => left; rfl
      | some m =>
        cases hG : generate_slots sched store req.date req.appointment_type with
        | none => left; simp [hG]
        | some slots =>
          cases hF : slots.reverse.find? (fun t => t.start_time = req.start_time &&
              t.end_time = format_time (m + dur)) with
          | none => left; simp [hG, hF]
          | some s =>
            by_cases hA : s.available = true
            · right
              exact ⟨m, dur, slots, s, rfl, rfl, rfl, hF, hA, by simp [hF, hA]⟩
            · left
              simp only [Bool.not_eq_true] at hA
              simp [hG, hF, hA]

/-- A successful commit was verified, via the slot's `available` flag, against
the very collection it is appended to, so each date's collected intervals stay
pairwise disjoint across any `book_appointment` call. -/
lemma book_preserves_invariant (sched : Schedule) (store : Store) (req : BookingRequest)
    (d : String) (h : DateInvariant sched store d) :
    DateInvariant sched (book_appointment sched store req).2 d := by
  rcases book_store_cases sched store req with
    hsame | ⟨m, dur, slots, s, hdur, hM, hG, hF, hA, hstore⟩
  · rw [hsame]; exact h
  · rw [hstore]
    by_cases hdd : d = req.date
    · subst hdd
      intro exB hexB
      rw [collect_setdefaultAppend_self] at hexB
      cases hex0 : collect_existing_bookings sched store req.date with
      | none => rw [hex0] at hexB; simp at hexB
      | some ex =>
        rw [hex0] at hexB
        rcases generate_some_inversion hG with
          ⟨wd, hwd, hh, hempty⟩ |
          ⟨wd, hs, he, ds, de, dur', ex2, hwd, hh, hdur2, hds, hde, hex2, hgrid⟩
        · subst hempty; simp at hF
        · rw [hdur] at hdur2
          replace hdur2 : dur = dur' := by injection hdur2
          subst hdur2
          rw [hex0] at hex2
          replace hex2 : ex = ex2 := by injection hex2
          subst hex2
          have hde1440 : de < 1440 := parse_time_lt hde
          have hpos : 0 < dur := duration_pos hdur
          rw [hgrid] at hF
          obtain ⟨k, hk, hmk, hmd, hsk⟩ := find_key_anatomy hpos hde1440 hM hF
          have hend_parse : parse_time (format_time (m + dur)) = some (m + dur) :=
            parse_format_roundtrip (by omega)
          simp only [hM, hend_parse, Option.some_bind] at hexB
          injection hexB with hexB
          subst hexB
          rw [PairwiseDisjoint, List.pairwise_append]
          refine ⟨h ex hex0, List.pairwise_singleton _ _, ?_⟩
          intro a ha b hb
          rw [List.mem_singleton] at hb
          subst hb
          have hA' : (gridSlot ds dur ex k).available = true := by
            rw [← hsk]; exact hA
          have hov := gridSlot_available_iff.mp hA' a ha
          have harith : m + dur = ds + (k + 1) * dur := by rw [hmk]; ring
          rw [overlaps_comm, harith, hmk]
          exact hov
    · intro exB hexB
      rw [collect_setdefaultAppend_other hdd] at hexB
      exact h exB hexB

/-- Sequencing booking requests preserves the per-date disjointness. -/
lemma runBooks_preserves_invariant (sched : Schedule) (d : String) :
    ∀ (reqs : List BookingRequest) (store : Store), DateInvariant sched store d →
      DateInvariant sched (runBooks sched reqs store) d := by
  intro reqs
  induction reqs with
  | nil => intro store h; exact h
  | cons r rest ih =>
    intro store h
    exact ih ((book_appointment sched store r).2) (book_preserves_invariant sched store r d h)

/-- C1 (amended): provided the config-sourced pre-existing intervals for a
date are themselves pairwise non-overlapping (the empty-store collection is
disjoint), then after any sequence of successful and failed book operations
starting from the empty runtime store, the committed intervals recorded for
that date — config-sourced together with runtime-committed — remain pairwise
non-overlapping under half-open semantics; moreover every single book
operation preserves this invariant from any store state. -/
theorem c1_booking_invariant (sched : Schedule) (d : String) :
    (∀ (store : Store) (req : BookingRequest), DateInvariant sched store d →
      DateInvariant sched (book_appointment sched store req).2 d) ∧
    (∀ reqs : List BookingRequest, DateInvariant sched [] d →
      DateInvariant sched (runBooks sched reqs []) d) :=
  ⟨fun store req h => book_preserves_invariant sched store req d h,
   fun reqs h0 => runBooks_preserves_invariant sched d reqs [] h0⟩

/-- Witness for C1: the spec's §8 scenario keeps 2024-01-15 disjoint after
booking the 09:00 consultation slot. -/
theorem c1_booking_invariant_witness :
    DateInvariant sampleSchedule (runBooks sampleSchedule [sampleRequest] []) "2024-01-15" := by
  have h0 : DateInvariant sampleSchedule [] "2024-01-15" := by
    intro ex hex
    rw [show collect_existing_bookings sampleSchedule [] "2024-01-15" = some [] from rfl]
      at hex
    injection hex with hex
    rw [← hex]
    exact List.Pairwise.nil
  exact (c1_booking_invariant sampleSchedule "2024-01-15").2 [sampleRequest] h0

/-- Counterexample to C1 as stated: with a configuration whose pre-existing
bookings overlap, the empty sequence of book operations from the empty runtime
store already leaves two overlapping committed intervals on 2024-01-15 —
the commit check cannot enforce disjointness of the config-sourced entries. -/
theorem c1_counterexample :
    ¬ DateInvariant schedBad (runBooks schedBad [] []) "2024-01-15" := by
  intro h
  have h2 := h [(540, 600), (570, 630)] (by rfl)
  rw [PairwiseDisjoint] at h2
  cases h2 with
  | cons hrel _ => exact absurd (hrel (570, 630) (by simp)) (by decide)

/-- C8: on a date whose weekday has no configured working-hours window,
slot generation returns the empty sequence (not an error), whatever the
pre-existing or runtime bookings are. -/
theorem c8_closed_day_empty {sched : Schedule} {store : Store} {date_str t wd : String}
    (hwd : get_weekday date_str = some wd)
    (hh : sched.working_hours wd = none) :
    generate_slots sched store date_str t = some [] :=
  generate_closed hwd hh

/-- Witness for C8: Tuesday 2024-01-16 is closed in the sample schedule, and
generation returns the empty sequence even with a booking recorded that day. -/
theorem c8_closed_day_empty_witness :
    get_weekday "2024-01-16" = some "tuesday" ∧
    sampleSchedule.working_hours "tuesday" = none ∧
    generate_slots sampleSchedule [("2024-01-16", [("09:00", "09:30")])]
      "2024-01-16" "physical" = some [] :=
  ⟨by decide, by decide,
   @c8_closed_day_empty sampleSchedule [("2024-01-16", [("09:00", "09:30")])]
     "2024-01-16" "physical" "tuesday" (by decide) (by decide)⟩

/-- C7: the availability query never mutates the runtime booking store, and
an immediately repeated identical query returns the identical outcome. -/
theorem c7_availability_pure (sched : Schedule) (store : Store) (date t : String) :
    (get_availability sched store date t).2 = store ∧
    (get_availability sched ((get_availability sched store date t).2) date t).1 =
      (get_availability sched store date t).1 := by
  have h2 : (get_availability sched store date t).2 = store := by
    unfold get_availability
    cases APPOINTMENT_DURATIONS_MIN t with
    | none => rfl
    | some dur =>
      cases parse_date date with
      | none => rfl
      | some ymd =>
        cases generate_slots sched store date t with
        | none => rfl
        | some slots => rfl
  exact ⟨h2, by rw [h2]⟩

/-- C2: a generated slot's `available` flag is false exactly when some
collected interval (config-sourced or runtime-committed) overlaps the
candidate under half-open semantics. -/
theorem c2_available_iff_overlap {sched : Schedule} {store : Store}
    {date_str t wd hs he : String} {ds de dur : Nat} {ex : List (Nat × Nat)}
    {slots : List Slot} {s : Slot}
    (hwd : get_weekday date_str = some wd)
    (hh : sched.working_hours wd = some (hs, he))
    (hdur : APPOINTMENT_DURATIONS_MIN t = some dur)
    (hds : parse_time hs = some ds) (hde : parse_time he = some de)
    (hex : collect_existing_bookings sched store date_str = some ex)
    (hgen : generate_slots sched store date_str t = some slots)
    (hs_mem : s ∈ slots) :
    ∃ k, s = gridSlot ds dur ex k ∧
      (s.available = false ↔ ∃ b ∈ ex,
        overlaps (ds + k * dur) (ds + (k + 1) * dur) b.1 b.2 = true) := by
  rw [generate_eq_grid hwd hh hdur hds hde hex] at hgen
  replace hgen : (List.range ((de - ds) / dur)).map (gridSlot ds dur ex) = slots := by
    injection hgen
  subst hgen
  obtain ⟨k, _, hsk⟩ := List.mem_map.mp hs_mem
  refine ⟨k, hsk.symm, ?_⟩
  rw [← hsk]
  simp [gridSlot, List.any_eq_true]

/-- Witness for C2: with 09:00–09:30 already committed on 2024-01-15, the
first consultation slot is unavailable precisely because of that overlap. -/
theorem c2_available_iff_overlap_witness :
    generate_slots sampleSchedule [("2024-01-15", [("09:00", "09:30")])]
        "2024-01-15" "consultation"
      = some [⟨"09:00", "09:30", false⟩, ⟨"09:30", "10:00", true⟩] ∧
    ∃ k, (⟨"09:00", "09:30", false⟩ : Slot) = gridSlot 540 30 [(540, 570)] k ∧
      ((⟨"09:00", "09:30", false⟩ : Slot).available = false ↔ ∃ b ∈ [((540 : Nat), (570 : Nat))],
        overlaps (540 + k * 30) (540 + (k + 1) * 30) b.1 b.2 = true) :=
  ⟨by decide,
   @c2_available_iff_overlap sampleSchedule [("2024-01-15", [("09:00", "09:30")])]
     "2024-01-15" "consultation" "monday" "09:00" "10:00" 540 600 30 [(540, 570)]
     [⟨"09:00", "09:30", false⟩, ⟨"09:30", "10:00", true⟩] ⟨"09:00", "09:30", false⟩
     (by decide) (by decide) (by decide) (by decide) (by decide)
     (by decide) (by decide) (by decide)⟩

/-- C3: on an open day the generated sequence is the deterministic ascending
grid: `(de - ds) / dur` slots, the k-th running from `ds + k*dur` to
`ds + (k+1)*dur`, contiguous, pairwise non-overlapping, never past closing. -/
theorem c3_grid_structure {sched : Schedule} {store : Store}
    {date_str t wd hs he : String} {ds de dur : Nat} {ex : List (Nat × Nat)}
    (hwd : get_weekday date_str = some wd)
    (hh : sched.working_hours wd = some (hs, he))
    (hdur : APPOINTMENT_DURATIONS_MIN t = some dur)
    (hds : parse_time hs = some ds) (hde : parse_time he = some de)
    (hex : collect_existing_bookings sched store date_str = some ex) :
    ∃ slots, generate_slots sched store date_str t = some slots ∧
      slots.length = (de - ds) / dur ∧
      (∀ k (hk : k < slots.length),
        parse_time ((slots.get ⟨k, hk⟩).start_time) = some (ds + k * dur) ∧
        parse_time ((slots.get ⟨k, hk⟩).end_time) = some (ds + (k + 1) * dur) ∧
        ds + (k + 1) * dur ≤ de) ∧
      (∀ k (hk : k + 1 < slots.length),
        (slots.get ⟨k + 1, hk⟩).start_time =
          (slots.get ⟨k, Nat.lt_of_succ_lt hk⟩).end_time) ∧
      (∀ i j, i < slots.length → j < slots.length → i < j →
        overlaps (ds + i * dur) (ds + (i + 1) * dur) (ds + j * dur) (ds + (j + 1) * dur)
          = false) := by
  have hpos : 0 < dur := duration_pos hdur
  have hde14 : de < 1440 := parse_time_lt hde
  refine ⟨(List.range ((de - ds) / dur)).map (gridSlot ds dur ex),
    generate_eq_grid hwd hh hdur hds hde hex, by simp, ?_, ?_, ?_⟩
  · intro k hk
    simp only [List.length_map, List.length_range] at hk
    have hend := grid_end_le hpos hk
    have hBA : (k + 1) * dur = k * dur + dur := Nat.succ_mul k dur
    have hlt1 : ds + k * dur < 1440 := by
      rw [hBA] at hend
      generalize k * dur = A at hend ⊢
      omega
    have hlt2 : ds + (k + 1) * dur < 1440 := by
      generalize (k + 1) * dur = A at hend ⊢
      omega
    simp only [List.get_eq_getElem, List.getElem_map, List.getElem_range, gridSlot]
    exact ⟨parse_format_roundtrip hlt1, parse_format_roundtrip hlt2, hend⟩
  · intro k hk
    simp only [List.get_eq_getElem, List.getElem_map, List.getElem_range, gridSlot]
  · intro i j hi hj hij
    have hle : (i + 1) * dur ≤ j * dur := Nat.mul_le_mul_right dur hij
    have hnb : ¬ (ds + j * dur < ds + (i + 1) * dur) := by
      generalize (i + 1) * dur = A at hle ⊢
      generalize j * dur = B at hle ⊢
      omega
    simp [overlaps, hnb]

/-- Witness for C3: Monday 09:00–10:00 with 30-minute consultations yields the
two-slot grid with all the stated structure. -/
theorem c3_grid_structure_witness :
    get_weekday "2024-01-15" = some "monday" ∧
    sampleSchedule.working_hours "monday" = some ("09:00", "10:00") ∧
    APPOINTMENT_DURATIONS_MIN "consultation" = some 30 ∧
    ∃ slots, generate_slots sampleSchedule [] "2024-01-15" "consultation" = some slots ∧
      slots.length = (600 - 540) / 30 ∧
      (∀ k (hk : k < slots.length),
        parse_time ((slots.get ⟨k, hk⟩).start_time) = some (540 + k * 30) ∧
        parse_time ((slots.get ⟨k, hk⟩).end_time) = some (540 + (k + 1) * 30) ∧
        540 + (k + 1) * 30 ≤ 600) ∧
      (∀ k (hk : k + 1 < slots.length),
        (slots.get ⟨k + 1, hk⟩).start_time =
          (slots.get ⟨k, Nat.lt_of_succ_lt hk⟩).end_time) ∧
      (∀ i j, i < slots.length → j < slots.length → i < j →
        overlaps (540 + i * 30) (540 + (i + 1) * 30) (540 + j * 30) (540 + (j + 1) * 30)
          = false) :=
  ⟨by decide, by decide, by decide,
   @c3_grid_structure sampleSchedule [] "2024-01-15" "consultation" "monday"
     "09:00" "10:00" 540 600 30 []
     (by decide) (by decide) (by decide) (by decide) (by decide) (by decide)⟩

/-- C5: a well-formed booking request of a known type whose requested
(start, end) pair matches no generated slot fails with the
outside-working-hours client error — a class distinct from the conflict
error — and writes nothing. -/
theorem c5_off_grid_rejected {sched : Schedule} {store : Store} {req : BookingRequest}
    {dur m : Nat} {ymd : Nat × Nat × Nat} {slots : List Slot}
    (hdur : APPOINTMENT_DURATIONS_MIN req.appointment_type = some dur)
    (hD : parse_date req.date = some ymd)
    (hM : parse_time req.start_time = some m)
    (hG : generate_slots sched store req.date req.appointment_type = some slots)
    (hnone : ∀ s ∈ slots, ¬ (s.start_time = req.start_time ∧
      s.end_time = format_time (m + dur))) :
    book_appointment sched store req = (.err .outsideWorkingHours, store) ∧
    BookErr.outsideWorkingHours.status = 400 ∧ BookErr.slotConflict.status = 409 := by
  refine ⟨?_, rfl, rfl⟩
  have hfind : slots.reverse.find? (fun s => s.start_time = req.start_time &&
      s.end_time = format_time (m + dur)) = none := by
    rw [List.find?_eq_none]
    intro s hmem
    have hn := hnone s (List.mem_reverse.mp hmem)
    simp only [Bool.and_eq_true, decide_eq_true_eq]
    tauto
  simp [book_appointment, hdur, hD, hM, hG, hfind]

/-- Witness for C5: requesting 09:10 — a start offset by a non-multiple of
the 30-minute duration from the 09:00 opening — is rejected as outside
working hours and the store stays empty. -/
theorem c5_off_grid_rejected_witness :
    book_appointment sampleSchedule []
      { appointment_type := "consultation", date := "2024-01-15",
        start_time := "09:10", patient := samplePatient, reason := none }
      = (.err .outsideWorkingHours, []) ∧
    BookErr.outsideWorkingHours.status = 400 ∧ BookErr.slotConflict.status = 409 :=
  @c5_off_grid_rejected sampleSchedule []
    { appointment_type := "consultation", date := "2024-01-15",
      start_time := "09:10", patient := samplePatient, reason := none }
    30 550 (2024, 1, 15)
    [⟨"09:00", "09:30", true⟩, ⟨"09:30", "10:00", true⟩]
    (by decide) (by decide) (by decide) (by decide) (by decide)

/-- C6: a failing book operation (unknown type, malformed date/time, outside
working hours, conflict — or a crash) leaves the runtime store unchanged; a
successful one appends exactly the requested interval under the requested
date. -/
theorem c6_no_partial_commit (sched : Schedule) (store : Store) (req : BookingRequest) :
    (∀ e, (book_appointment sched store req).1 = .err e →
      (book_appointment sched store req).2 = store) ∧
    ((book_appointment sched store req).1 = .crash →
      (book_appointment sched store req).2 = store) ∧
    (∀ st det, (book_appointment sched store req).1 = .ok st det →
      ∃ m dur, APPOINTMENT_DURATIONS_MIN req.appointment_type = some dur ∧
        parse_time req.start_time = some m ∧
        (book_appointment sched store req).2 =
          Store.setdefaultAppend store req.date (req.start_time, format_time (m + dur))) := by
  unfold book_appointment
  cases hdur : APPOINTMENT_DURATIONS_MIN req.appointment_type with
  | none => exact ⟨fun e he => rfl, fun hc => rfl, fun st det hok => by cases hok⟩
  | some dur =>
    cases hD : parse_date req.date with
    | none =>
      cases hM : parse_time req.start_time with
      | none => exact ⟨fun e he => rfl, fun hc => rfl, fun st det hok => by cases hok⟩
      | some m => exact ⟨fun e he => rfl, fun hc => rfl, fun st det hok => by cases hok⟩
    | some ymd =>
      cases hM : parse_time req.start_time with
      | none => exact ⟨fun e he => rfl, fun hc => rfl, fun st det hok => by cases hok⟩
      | some m =>
        cases hG : generate_slots sched store req.date req.appointment_type with
        | none =>
          exact ⟨fun e he => by simp [hG], fun hc => by simp [hG],
            fun st det hok => by simp [hG] at hok⟩
        | some slots =>
          cases hF : slots.reverse.find? (fun s => s.start_time = req.start_time &&
              s.end_time = format_time (m + dur)) with
          | none =>
            exact ⟨fun e he => by simp [hG, hF], fun hc => by simp [hG, hF],
              fun st det hok => by simp [hG, hF] at hok⟩
          | some s =>
            by_cases hA : s.available = true
            · refine ⟨fun e he => ?_, fun hc => ?_, fun st det hok => ?_⟩
              · simp [hG, hF, hA] at he
              · simp [hG, hF, hA] at hc
              · exact ⟨m, dur, rfl, rfl, by simp [hG, hF, hA]⟩
            · have hA' : s.available = false := by
                revert hA
                cases s.available <;> simp
              exact ⟨fun e he => by simp [hG, hF, hA'], fun hc => by simp [hG, hF, hA'],
                fun st det hok => by simp [hG, hF, hA'] at hok⟩

/-- Witness for C6: the rejected unpadded request writes nothing. -/
theorem c6_no_partial_commit_witness :
    (book_appointment sampleSchedule [] unpaddedRequest).2 = [] :=
  (c6_no_partial_commit sampleSchedule [] unpaddedRequest).1
    BookErr.outsideWorkingHours (by decide)

/-- C10: `book_appointment` matches the request's raw start-time string and a
formatted end-time string against the generator's zero-padded "HH:MM" keys,
not parsed values: "9:00" parses to the same minute as "09:00", the 09:00
slot is generated and available, yet the request written "9:00" fails with
the outside-working-hours error. -/
theorem c10_string_keyed_matching :
    parse_time "9:00" = parse_time "09:00" ∧
    (⟨"09:00", "09:30", true⟩ : Slot) ∈
      (generate_slots sampleSchedule [] "2024-01-15" "consultation").getD [] ∧
    book_appointment sampleSchedule [] unpaddedRequest =
      (.err .outsideWorkingHours, []) :=
  ⟨by decide, by decide, by decide⟩

/-- C4: a booking request whose (start, end) pair matches a currently
available generated slot succeeds with status "confirmed" and commits the
slot; the immediately repeated identical request then fails with the
conflict error (409 class), not the outside-working-hours error. -/
theorem c4_available_booking_then_conflict
    {sched : Schedule} {store : Store} {req : BookingRequest}
    {dur m : Nat} {ymd : Nat × Nat × Nat} {slots : List Slot} {s : Slot}
    (hdur : APPOINTMENT_DURATIONS_MIN req.appointment_type = some dur)
    (hD : parse_date req.date = some ymd)
    (hM : parse_time req.start_time = some m)
    (hG : generate_slots sched store req.date req.appointment_type = some slots)
    (hs_mem : s ∈ slots)
    (hstart : s.start_time = req.start_time)
    (hend : s.end_time = format_time (m + dur))
    (hA : s.available = true) :
    (∃ det, book_appointment sched store req =
      (.ok "confirmed" det,
       Store.setdefaultAppend store req.date (req.start_time, format_time (m + dur)))) ∧
    (book_appointment sched
        (book_appointment sched store req).2 req).1 = .err .slotConflict := by
  have hpos : 0 < dur := duration_pos hdur
  rcases generate_some_inversion hG with
    ⟨wd, hwd, hclosed, hempty⟩ |
    ⟨wd, whs, whe, ds, de, dur2, ex, hwd, hhours, hdur2, hwds, hwde, hexcol, hgrid⟩
  · subst hempty; simp at hs_mem
  · rw [hdur] at hdur2
    replace hdur2 : dur = dur2 := by injection hdur2
    subst hdur2
    have hde14 : de < 1440 := parse_time_lt hwde
    subst hgrid
    obtain ⟨k, hkr, hsk⟩ := List.mem_map.mp hs_mem
    rw [List.mem_range] at hkr
    have hendk := grid_end_le hpos hkr
    have hBA : (k + 1) * dur = k * dur + dur := Nat.succ_mul k dur
    have hlt1 : ds + k * dur < 1440 := by
      rw [hBA] at hendk
      generalize k * dur = A at hendk ⊢
      omega
    have hfmt : format_time (ds + k * dur) = req.start_time := by
      rw [← hstart, ← hsk]; rfl
    have hmk : m = ds + k * dur := by
      have hrt := parse_format_roundtrip hlt1
      rw [hfmt, hM] at hrt
      injection hrt
    have harith : m + dur = ds + (k + 1) * dur := by rw [hmk]; ring
    have hmd14 : m + dur < 1440 := by
      rw [harith]
      generalize (k + 1) * dur = A at hendk ⊢
      omega
    have hps : (fun t : Slot => t.start_time = req.start_time &&
        t.end_time = format_time (m + dur)) s = true := by
      simp [hstart, hend]
    cases hF : ((List.range ((de - ds) / dur)).map (gridSlot ds dur ex)).reverse.find?
        (fun t => t.start_time = req.start_time && t.end_time = format_time (m + dur)) with
    | none =>
      rw [List.find?_eq_none] at hF
      exact absurd hps (hF s (List.mem_reverse.mpr hs_mem))
    | some sfound =>
      obtain ⟨kA, hkA, hmkA, hmdA, hskA⟩ := find_key_anatomy hpos hde14 hM hF
      have hkk : kA = k := by
        rw [hmk] at hmkA
        have : k * dur = kA * dur := by omega
        exact (Nat.eq_of_mul_eq_mul_right hpos this).symm
      subst hkk
      have hsfound : sfound = s := by rw [hskA, hsk]
      have hsfA : sfound.available = true := by rw [hsfound]; exact hA
      have hbook : book_appointment sched store req =
          (.ok "confirmed"
            { appointment_type := req.appointment_type, date := req.date,
              start_time := req.start_time, end_time := format_time (m + dur),
              patient := req.patient, reason := req.reason },
           Store.setdefaultAppend store req.date (req.start_time, format_time (m + dur))) := by
        simp [book_appointment, hdur, hD, hM, hG, hF, hsfA]
      refine ⟨⟨_, hbook⟩, ?_⟩
      -- the repeated identical request
      set exB : List (Nat × Nat) := ex ++ [(m, m + dur)] with hexBdef
      have hcol2 : collect_existing_bookings sched
          (Store.setdefaultAppend store req.date (req.start_time, format_time (m + dur)))
          req.date = some exB := by
        rw [collect_setdefaultAppend_self, hexcol]
        simp [hM, parse_format_roundtrip hmd14, hexBdef]
      have hG2 := generate_eq_grid hwd hhours hdur hwds hwde hcol2
      have hmem2 : gridSlot ds dur exB kA ∈
          (List.range ((de - ds) / dur)).map (gridSlot ds dur exB) :=
        List.mem_map.mpr ⟨kA, List.mem_range.mpr hkr, rfl⟩
      have hps2 : (fun t : Slot => t.start_time = req.start_time &&
          t.end_time = format_time (m + dur)) (gridSlot ds dur exB kA) = true := by
        simp only [gridSlot, Bool.and_eq_true, decide_eq_true_eq]
        exact ⟨hfmt, by rw [harith]⟩
      cases hF2 : ((List.range ((de - ds) / dur)).map (gridSlot ds dur exB)).reverse.find?
          (fun t => t.start_time = req.start_time && t.end_time = format_time (m + dur)) with
      | none =>
        rw [List.find?_eq_none] at hF2
        exact absurd hps2 (hF2 _ (List.mem_reverse.mpr hmem2))
      | some s2 =>
        obtain ⟨k2, hk2, hmk2, hmd2, hsk2⟩ := find_key_anatomy hpos hde14 hM hF2
        have hkk2 : kA = k2 := by
          rw [hmk] at hmk2
          have h5 : kA * dur = k2 * dur := by omega
          exact Nat.eq_of_mul_eq_mul_right hpos h5
        subst hkk2
        have hany : (exB.any fun b =>
            overlaps (ds + kA * dur) (ds + (kA + 1) * dur) b.1 b.2) = true := by
          refine List.any_eq_true.mpr ⟨(m, m + dur), by simp [hexBdef], ?_⟩
          rw [← hmk, ← harith]
          simp only [overlaps, Bool.and_eq_true, decide_eq_true_eq]
          omega
        have hs2A : s2.available = false := by
          rw [hsk2]
          simp [gridSlot, hany]
        rw [hbook]
        simp [book_appointment, hdur, hD, hM, hG2, hF2, hs2A]

/-- Witness for C4: booking the available 09:00 consultation slot succeeds
with "confirmed", and repeating the identical request yields the conflict. -/
theorem c4_available_booking_then_conflict_witness :
    (∃ det, book_appointment sampleSchedule [] sampleRequest =
      (.ok "confirmed" det,
       Store.setdefaultAppend [] "2024-01-15" ("09:00", format_time (540 + 30)))) ∧
    (book_appointment sampleSchedule
        (book_appointment sampleSchedule [] sampleRequest).2 sampleRequest).1 =
      .err .slotConflict :=
  @c4_available_booking_then_conflict sampleSchedule [] sampleRequest
    30 540 (2024, 1, 15)
    [⟨"09:00", "09:30", true⟩, ⟨"09:30", "10:00", true⟩] ⟨"09:00", "09:30", true⟩
    (by decide) (by decide) (by decide) (by decide) (by decide)
    (by decide) (by decide) (by decide)

end Calendly
